import Mathlib

/-!
Shallow embedding of the elixxir/registration control plane, translated from
the Go sources (scheduling/nodeStateChange.go, scheduling/simple/schedule.go,
storage/state.go, storage/permissioningMap.go).  Node and round identifiers
are modelled as `Nat`; `time.Time` values as `Nat` ticks; Go's fallible calls
as `Except String`; a Go nil-pointer panic as `Option.none`.  The packages
storage/round, storage/node (state) and the scheduling waitingPool /
RoundTracker are absent from the source tree (only their callers are), so the
round state machine, the per-node round pointer and the pool operations are
modelled from the spec, as flagged in their doc comments.
-/

/-- current.Activity from gitlab.com/elixxir/primitives: the activity a node
self-reports (NOT_STARTED, WAITING, PRECOMPUTING, STANDBY, REALTIME,
COMPLETED, ERROR). -/
inductive Activity where
  | notStarted
  | waiting
  | precomputing
  | standby
  | realtime
  | completed
  | error
deriving DecidableEq, Repr

/-- states.Round from gitlab.com/elixxir/primitives: the phase of a round
(PENDING, PRECOMPUTING, STANDBY, QUEUED, REALTIME, COMPLETED, FAILED). -/
inductive RoundPhase where
  | pending
  | precomputing
  | standby
  | queued
  | realtime
  | completed
  | failed
deriving DecidableEq, Repr

/-- Numeric value of a round phase, matching the iota constants of
states.Round (PENDING = 0 … FAILED = 6); used as the index into the
per-round timestamp vector. -/
def RoundPhase.toNat : RoundPhase → Nat
  | .pending => 0
  | .precomputing => 1
  | .standby => 2
  | .queued => 3
  | .realtime => 4
  | .completed => 5
  | .failed => 6

/-- node.Status from storage/node: a node's admission status. -/
inductive NodeStatus where
  | active
  | inactive
  | banned
deriving DecidableEq, Repr

/-- pb.RoundError: a signed error naming a round; `Id` is the round id,
`NodeId` the reporting node, `Error` the message text.  The `signed` flag
models `signature.Sign` having been applied. -/
structure RoundError where
  Id : Nat
  NodeId : Nat
  Error : String
  signed : Bool
deriving DecidableEq, Repr

/-- Client-reported error, opaque for the scheduler; an element of
`UpdateNotification.ClientErrors`. -/
abbrev ClientError := Nat

/-- pb.RoundInfo: one entry of the round-update log.  `Timestamps` is the
phase-indexed vector (length 7, indexed by `RoundPhase.toNat`). -/
structure RoundInfo where
  ID : Nat
  UpdateID : Nat
  State : RoundPhase
  Timestamps : List Nat
  Topology : List Nat
  BatchSize : Nat
deriving DecidableEq, Repr

/-- Modelled from the spec: round.State (package storage/round is absent from
the source tree; only its callers are present).  Per §3 of the spec a round
state holds "{RID, phase, ordered topology of NIDs, batch size,
phase-timestamp vector of length 7, error list, per-client error list,
readiness counter}". -/
structure RoundState where
  roundID : Nat
  phase : RoundPhase
  topology : List Nat
  batchSize : Nat
  timestamps : List Nat
  roundErrors : List RoundError
  clientErrors : List ClientError
  readyForTransition : Nat
deriving DecidableEq, Repr

/-- Modelled from the spec: round.State.Update (storage/round absent from the
source tree).  Per §3, "phase advances monotonically except that any phase may
transition to FAILED", and per-phase timestamps are recorded; an illegal
transition is rejected with an error and does not mutate state. -/
def RoundState.Update (r : RoundState) (newPhase : RoundPhase) (t : Nat) :
    Except String RoundState :=
  if r.phase.toNat < newPhase.toNat ∨ newPhase = .failed then
    .ok { r with phase := newPhase,
                 timestamps := r.timestamps.set newPhase.toNat t }
  else
    .error "round phase can only advance"

/-- Modelled from the spec: round.State.NodeIsReadyForTransition
(storage/round absent from the source tree).  Per §4.2, "Increment the
round's readiness counter; if it equals the team size" the transition fires.
Returns whether the incremented counter equals the team size (the topology
length), together with the round carrying the incremented counter. -/
def RoundState.NodeIsReadyForTransition (r : RoundState) : Bool × RoundState :=
  (decide (r.readyForTransition + 1 = r.topology.length),
   { r with readyForTransition := r.readyForTransition + 1 })

/-- Modelled from the spec: round.State.BuildRoundInfo (storage/round absent
from the source tree): snapshot the round state into a RoundInfo; the UID is
assigned later by AddRoundUpdate. -/
def RoundState.BuildRoundInfo (r : RoundState) : RoundInfo :=
  { ID := r.roundID, UpdateID := 0, State := r.phase,
    Timestamps := r.timestamps, Topology := r.topology,
    BatchSize := r.batchSize }

/-- node.UpdateNotification: the value the polling endpoint enqueues and the
scheduler hands to HandleNodeUpdates. -/
structure UpdateNotification where
  Node : Nat
  FromActivity : Activity
  ToActivity : Activity
  FromStatus : NodeStatus
  ToStatus : NodeStatus
  Error : RoundError
  ClientErrors : List ClientError
deriving DecidableEq, Repr

/-- The id.Permissioning identifier (an opaque constant in this model),
used as the NodeId of a synthesized ban RoundError. -/
def permissioningID : Nat := 0

/-- The slice of the mutable world touched by HandleNodeUpdates for the
subject node of one UpdateNotification: the node's current-round pointer
(node.State and the waitingPool are absent from the source tree and are
modelled from the spec §3/§4.5), the online and offline partitions of the
waiting pool, the active-round tracker, the emitted round-update log with its
next update id, and the storage backend (whose insert failures are modelled
by the three boolean flags; `storedMetrics` and `storedRoundErrors` record
successful inserts). -/
structure SchedState where
  currentRound : Option RoundState
  pool : List Nat
  poolOffline : List Nat
  activeRounds : List Nat
  updates : List RoundInfo
  updateID : Nat
  upsertStateFails : Bool
  insertRoundMetricFails : Bool
  insertRoundErrorFails : Bool
  storedMetrics : List Nat
  storedRoundErrors : List (Nat × String)
deriving DecidableEq, Repr

/-- Modelled from the spec: waitingPool.Add (§4.5), "add to online.
Idempotent on identity." -/
def SchedState.poolAdd (st : SchedState) (n : Nat) : SchedState :=
  if n ∈ st.pool then st else { st with pool := st.pool ++ [n] }

/-- Modelled from the spec: waitingPool.SetNodeToOnline (§4.5), "move from
offline → online". -/
def SchedState.poolSetNodeToOnline (st : SchedState) (n : Nat) : SchedState :=
  { st with poolOffline := st.poolOffline.filter (fun x => x ≠ n),
            pool := if n ∈ st.pool then st.pool else st.pool ++ [n] }

/-- Modelled from the spec: waitingPool.Ban (§4.5), "remove from both
partitions." -/
def SchedState.poolBan (st : SchedState) (n : Nat) : SchedState :=
  { st with pool := st.pool.filter (fun x => x ≠ n),
            poolOffline := st.poolOffline.filter (fun x => x ≠ n) }

/-- NetworkState.AddRoundUpdate (storage/state.go) as seen by the handler:
IncrementUpdateID assigns the current update id to the copied RoundInfo and
persists the incremented value (failing when the State upsert fails), and the
signed update is handed to the round adder, which appends it to the log. -/
def SchedState.AddRoundUpdate (st : SchedState) (info : RoundInfo) :
    Except String SchedState :=
  if st.upsertStateFails then
    .error "Unable to update current round ID"
  else
    .ok { st with
          updates := st.updates ++ [{ info with UpdateID := st.updateID }],
          updateID := st.updateID + 1 }

/-- StoreRoundMetric (scheduling/nodeStateChange.go): build a RoundMetric from
the round info timestamps and insert it; the insert's error is returned to
the caller. -/
def StoreRoundMetric (st : SchedState) (info : RoundInfo) :
    Except String SchedState :=
  if st.insertRoundMetricFails then
    .error "insert round metric failed"
  else
    .ok { st with storedMetrics := st.storedMetrics ++ [info.ID] }

/-- killRound (scheduling/nodeStateChange.go): append the round error,
transition the round to FAILED (removing it from the active tracker when the
transition succeeds), emit a RoundUpdate (whose failure is returned), then
best-effort insert a RoundMetric and a RoundError row, logging and swallowing
either storage failure.  The returned RoundState is the in-place mutated
*round.State. -/
def killRound (st : SchedState) (r : RoundState) (roundError : RoundError)
    (now : Nat) : Except String (SchedState × RoundState) :=
  let r1 : RoundState := { r with roundErrors := r.roundErrors ++ [roundError] }
  let step1 : SchedState × RoundState :=
    match r1.Update .failed now with
    | .ok r2 =>
      ({ st with activeRounds := st.activeRounds.filter (fun x => x ≠ r2.roundID) }, r2)
    | .error _ => (st, r1)
  let st1 := step1.1
  let r2 := step1.2
  let roundInfo := r2.BuildRoundInfo
  match st1.AddRoundUpdate roundInfo with
  | .error e => .error ("Could not issue update to kill round: " ++ e)
  | .ok st2 =>
    let st3 :=
      if st2.insertRoundMetricFails then st2
      else { st2 with storedMetrics := st2.storedMetrics ++ [r2.roundID] }
    let formattedError :=
      "Round Error from " ++ toString roundError.NodeId ++ ": " ++ roundError.Error
    let st4 :=
      if st3.insertRoundErrorFails then st3
      else { st3 with storedRoundErrors :=
               st3.storedRoundErrors ++ [(r2.roundID, formattedError)] }
    .ok (st4, r2)

/-- The ToActivity switch of HandleNodeUpdates
(scheduling/nodeStateChange.go), taken after the round-already-FAILED guard,
the client-error append and the ban branch; `rOpt` is the node's
current-round pointer at that point. -/
def handleActivity (update : UpdateNotification) (st : SchedState)
    (rOpt : Option RoundState) (realtimeDelay now : Nat) :
    Except String SchedState :=
  match update.ToActivity with
  | .notStarted => .ok st
  | .waiting =>
    if update.FromStatus = .inactive ∧ update.ToStatus = .active then
      .ok (st.poolSetNodeToOnline update.Node)
    else
      .ok (st.poolAdd update.Node)
  | .precomputing =>
    match rOpt with
    | none => .error "Node without round should not be moving to the PRECOMPUTING state"
    | some _ => .ok st
  | .standby =>
    match rOpt with
    | none => .error "Node without round should not be in PRECOMPUTING state"
    | some r =>
      let ready := r.NodeIsReadyForTransition
      let stateComplete := ready.1
      let r1 := ready.2
      if stateComplete then
        match r1.Update .standby now with
        | .error e => .error ("Could not move round from PRECOMPUTING to STANDBY: " ++ e)
        | .ok r2 =>
          match r2.Update .queued (now + realtimeDelay) with
          | .error e => .error ("Could not move round from STANDBY to QUEUED: " ++ e)
          | .ok r3 =>
            match SchedState.AddRoundUpdate
                { st with currentRound := some r3 } r3.BuildRoundInfo with
            | .error e => .error ("Could not issue update for round: " ++ e)
            | .ok st2 => .ok st2
      else
        .ok { st with currentRound := some r1 }
  | .realtime =>
    match rOpt with
    | none => .error "Node without round should not be moving to the REALTIME state"
    | some r =>
      if r.phase ≠ .realtime then
        match r.Update .realtime now with
        | .error e => .error ("Could not move round from QUEUED to REALTIME: " ++ e)
        | .ok r1 => .ok { st with currentRound := some r1 }
      else
        .ok st
  | .completed =>
    match rOpt with
    | none => .error "Node without round should not be in COMPLETED state"
    | some r =>
      let st1 := { st with currentRound := none }
      let ready := r.NodeIsReadyForTransition
      let stateComplete := ready.1
      let r1 := ready.2
      if stateComplete then
        match r1.Update .completed now with
        | .error e => .error ("Could not move round from REALTIME to COMPLETED: " ++ e)
        | .ok r2 =>
          let roundInfo := r2.BuildRoundInfo
          match st1.AddRoundUpdate roundInfo with
          | .error e => .error ("Could not issue update for round: " ++ e)
          | .ok st2 =>
            let st3 := { st2 with
              activeRounds := st2.activeRounds.filter (fun x => x ≠ r2.roundID) }
            StoreRoundMetric st3 roundInfo
      else
        .ok st1
  | .error =>
    match rOpt with
    | some r =>
      let st1 := { st with currentRound := none }
      match killRound st1 r update.Error now with
      | .ok p => .ok p.1
      | .error e => .error e
    | none => .ok st

/-- HandleNodeUpdates (scheduling/nodeStateChange.go): the node-state-change
reducer for one UpdateNotification.  In order: return success untouched when
the node's round is already FAILED and the update is not an ERROR; append any
client errors to the round (a Go nil-pointer panic — client errors with no
round — is modelled as an error); process a Banned status (kill the round or
ban from the pool) without entering the activity switch; otherwise dispatch
on ToActivity. -/
def HandleNodeUpdates (update : UpdateNotification) (st : SchedState)
    (realtimeDelay now : Nat) : Except String SchedState :=
  let roundErrored : Bool :=
    match st.currentRound with
    | some r => decide (r.phase = .failed ∧ update.ToActivity ≠ .error)
    | none => false
  if roundErrored then .ok st
  else
    match st.currentRound, update.ClientErrors with
    | none, _ :: _ => .error "panic: AppendClientErrors on nil round"
    | rOpt0, _ =>
      let rOpt : Option RoundState :=
        match rOpt0 with
        | some r =>
          if update.ClientErrors ≠ [] then
            some { r with clientErrors := r.clientErrors ++ update.ClientErrors }
          else some r
        | none => none
      let st1 := { st with currentRound := rOpt }
      if update.ToStatus = .banned then
        match rOpt with
        | some r =>
          let banError : RoundError :=
            { Id := r.roundID, NodeId := permissioningID,
              Error := "Round killed due to particiption of banned node " ++
                toString update.Node,
              signed := true }
          match killRound { st1 with currentRound := none } r banError now with
          | .ok p => .ok p.1
          | .error e => .error e
        | none => .ok (st1.poolBan update.Node)
      else
        handleActivity update st1 rOpt realtimeDelay now

/-- The round-starter goroutine's delay computation
(scheduling/simple/schedule.go): `timeDiff := time.Now().Sub(lastRound); if
timeDiff < params.MinimumDelay*time.Millisecond { time.Sleep(timeDiff) }`.
Returns the tick at which the round is actually started: the code sleeps
`timeDiff` (not the remaining deficit), so the start tick is
`now + timeDiff` when `timeDiff < minimumDelay`, else `now`. -/
def roundStarterStartTime (lastRound now minimumDelay : Nat) : Nat :=
  let timeDiff := now - lastRound
  if timeDiff < minimumDelay then now + timeDiff else now

/-- The state of the round-adder consumer (storage/state.go,
RoundAdderRoutine): the durably inserted log (in insertion order), the map of
parked future updates (keyed by UID, so a set of UIDs since the key equals
the entry's UID), and `nextID`. -/
structure AdderState where
  log : List Nat
  future : Finset Nat
  nextID : Nat
deriving DecidableEq

/-- The drain loop of RoundAdderRoutine (storage/state.go): "Sequentially
process updates added earlier until a gap is reached" — while
`futureRoundUpdates[nextID]` exists, insert it, delete it from the map and
advance `nextID`. -/
def drainAux (future : Finset Nat) (nextID : Nat) (log : List Nat) :
    List Nat × Finset Nat × Nat :=
  if h : nextID ∈ future then
    drainAux (future.erase nextID) (nextID + 1) (log ++ [nextID])
  else
    (log, future, nextID)
termination_by future.card
decreasing_by exact Finset.card_erase_lt_of_mem h

/-- One iteration of RoundAdderRoutine (storage/state.go) on an inbound
update with UID `uid`: a UID below `nextID` is inserted immediately; when
`nextID` is still unset (0) it is set to the inbound UID; the update is
parked in the future map; parked updates are drained in order. -/
def roundAdderStep (s : AdderState) (uid : Nat) : AdderState :=
  if uid < s.nextID then
    { s with log := s.log ++ [uid] }
  else
    let n0 := if s.nextID = 0 then uid else s.nextID
    let fut := insert uid s.future
    let d := drainAux fut n0 s.log
    ⟨d.1, d.2.1, d.2.2⟩

/-- RoundAdderRoutine (storage/state.go) run over a finite arrival sequence:
fold the per-update step over the UIDs read from the channel, starting from
an empty log, an empty future map and `nextID = 0`. -/
def RoundAdderRoutine (uids : List Nat) : AdderState :=
  uids.foldl roundAdderStep ⟨[], ∅, 0⟩

/-- strconv.FormatUint(v, 10) (used by NetworkState.setId in
storage/state.go), modelled as the little-endian base-10 digit string of the
value. -/
def FormatUint (n : Nat) : List Nat := Nat.digits 10 n

/-- strconv.ParseUint(s, 10, 64) (used by NetworkState.get in
storage/state.go), modelled on digit strings: every digit must be below 10,
and the parsed value is the base-10 denotation. -/
def ParseUint (s : List Nat) : Except String Nat :=
  if s.all (fun d => d < 10) then .ok (Nat.ofDigits 10 s) else
    .error "Unable to parse"

/-- The State key-value table behind MapImpl.UpsertState/GetStateValue
(storage/permissioningMap.go): a map from key strings to stored values. -/
structure StateDb where
  states : String → Option (List Nat)

/-- MapImpl.UpsertState (storage/permissioningMap.go): store the value under
the key, overwriting; never fails. -/
def StateDb.UpsertState (db : StateDb) (key : String) (value : List Nat) :
    StateDb :=
  ⟨fun k => if k = key then some value else db.states k⟩

/-- MapImpl.GetStateValue (storage/permissioningMap.go): return the stored
value, or an error when the key is absent. -/
def StateDb.GetStateValue (db : StateDb) (key : String) :
    Except String (List Nat) :=
  match db.states key with
  | some v => .ok v
  | none => .error ("Unable to locate state for key " ++ key)

/-- The UpdateIdKey constant of the State table (storage/interface.go). -/
def UpdateIdKey : String := "UpdateId"

/-- The persistence-relevant slice of NetworkState (storage/state.go): the
State table, the in-memory `updateID` counter, and the updates appended so
far (carrying their assigned UIDs). -/
structure NetworkStateIds where
  db : StateDb
  updateID : Nat
  updates : List RoundInfo

/-- NetworkState.setId (storage/state.go): persist the value under the key
via UpsertState, formatted with strconv.FormatUint. -/
def NetworkStateIds.setId (s : NetworkStateIds) (key : String) (newVal : Nat) :
    NetworkStateIds :=
  { s with db := s.db.UpsertState key (FormatUint newVal) }

/-- NetworkState.get (storage/state.go): read the stored value for the key
via GetStateValue and parse it with strconv.ParseUint. -/
def NetworkStateIds.get (s : NetworkStateIds) (key : String) :
    Except String Nat :=
  match s.db.GetStateValue key with
  | .error e => .error e
  | .ok v => ParseUint v

/-- NetworkState.GetUpdateID (storage/state.go): `s.get(UpdateIdKey)`. -/
def NetworkStateIds.GetUpdateID (s : NetworkStateIds) : Except String Nat :=
  s.get UpdateIdKey

/-- NetworkState.IncrementUpdateID (storage/state.go): return the old update
id, advance the in-memory counter, and persist the incremented value. -/
def NetworkStateIds.IncrementUpdateID (s : NetworkStateIds) :
    Nat × NetworkStateIds :=
  let oldUpdateID := s.updateID
  let s1 := { s with updateID := s.updateID + 1 }
  (oldUpdateID, s1.setId UpdateIdKey (s.updateID + 1))

/-- NetworkState.AddRoundUpdate (storage/state.go) at the persistence level:
the copied round info is assigned the UID returned by IncrementUpdateID (the
old counter value) and appended.  Returns the assigned UID with the new
state. -/
def NetworkStateIds.AddRoundUpdate (s : NetworkStateIds) (info : RoundInfo) :
    Nat × NetworkStateIds :=
  let p := s.IncrementUpdateID
  (p.1, { p.2 with updates := p.2.updates ++ [{ info with UpdateID := p.1 }] })

/-- The `state.updateID, err = state.GetUpdateID()` load in NewState
(storage/state.go): the stored update id is read from the State table on
restart (a stored value must parse; the gorm record-not-found case yields the
zero value 0). -/
def NewStateLoadUpdateID (db : StateDb) : Except String Nat :=
  match db.states UpdateIdKey with
  | none => .ok 0
  | some v => ParseUint v

/-- ndf.Active / ndf.Stale: the status stamped on a node record during NDF
publication; `unspecified` stands for whatever the snapshot carried before
the prune pass. -/
inductive NdfNodeStatus where
  | active
  | stale
  | unspecified
deriving DecidableEq, Repr

/-- A node record of the NDF: its identifier and status. -/
structure NdfNode where
  ID : Nat
  Status : NdfNodeStatus
deriving DecidableEq, Repr

/-- A gateway record of the NDF, co-indexed with the node list. -/
structure NdfGateway where
  ID : Nat
deriving DecidableEq, Repr

/-- A consistent snapshot of an ndf.NetworkDefinition: timestamp, node list
and gateway list. -/
structure NdfSnapshot where
  Timestamp : Nat
  Nodes : List NdfNode
  Gateways : List NdfGateway
deriving DecidableEq, Repr

/-- The NDF-publication slice of NetworkState (storage/state.go): the
canonical unpruned NDF, the prune list (NID → remove/stale), and the
published full and partial NDFs. -/
structure OutputNdfState where
  unprunedNdf : Option NdfSnapshot
  pruneList : Nat → Option Bool
  fullNdf : Option NdfSnapshot
  partialNdf : Option NdfSnapshot

/-- The prune pass of UpdateOutputNdf (storage/state.go): the Go code walks
`newNdf.Nodes` by index, removing the node and the gateway at the same index
(with `i--`) when the prune list maps the node to true, marking it Stale when
mapped to false, and Active when absent.  Because removal shifts the
remaining elements down while `i--` compensates, each original element is
visited exactly once in order, and the gateway list is consumed in lockstep;
this recursion is that loop with the node list's head as the current index
(the gateway tail is taken even when the gateway list is short, where the Go
code would panic on a slice out of range — the theorems assume the
co-indexing precondition `|Nodes| = |Gateways|`). -/
def pruneLoop (pl : Nat → Option Bool) :
    List NdfNode → List NdfGateway → List NdfNode × List NdfGateway
  | [], gws => ([], gws)
  | n :: ns, gws =>
    match pl n.ID with
    | some true => pruneLoop pl ns (gws.drop 1)
    | some false =>
      let r := pruneLoop pl ns (gws.drop 1)
      ({ n with Status := .stale } :: r.1, gws.take 1 ++ r.2)
    | none =>
      let r := pruneLoop pl ns (gws.drop 1)
      ({ n with Status := .active } :: r.1, gws.take 1 ++ r.2)

/-- The per-pair prune decision, used to state positional correspondence of
the published lists: a node mapped to true is dropped with its gateway, one
mapped to false is kept Stale, an unmapped one is kept Active. -/
def pruneDecision (pl : Nat → Option Bool) (p : NdfNode × NdfGateway) :
    Option (NdfNode × NdfGateway) :=
  match pl p.1.ID with
  | some true => none
  | some false => some ({ p.1 with Status := .stale }, p.2)
  | none => some ({ p.1 with Status := .active }, p.2)

/-- UpdateOutputNdf (storage/state.go): snapshot the canonical unpruned NDF
(skip when there is none, or when a previously published full NDF exists
whose timestamp is not strictly earlier than the snapshot's), prune the node
and gateway lists against the prune list, then sign and install the full and
partial NDFs.  Marshalling, signing and the file writes always succeed in
this model; the Boolean reports whether a publication happened. -/
def UpdateOutputNdf (s : OutputNdfState) : OutputNdfState × Bool :=
  match s.unprunedNdf with
  | none => (s, false)
  | some loadedNdf =>
    let skip : Bool :=
      match s.fullNdf with
      | some prev => decide (loadedNdf.Timestamp ≤ prev.Timestamp)
      | none => false
    if skip then (s, false)
    else
      let pruned := pruneLoop s.pruneList loadedNdf.Nodes loadedNdf.Gateways
      let published : NdfSnapshot :=
        { Timestamp := loadedNdf.Timestamp,
          Nodes := pruned.1, Gateways := pruned.2 }
      ({ s with fullNdf := some published, partialNdf := some published },
       true)

/-- The prune-set slice of NetworkState (storage/state.go): the prune list
and the disabled-nodes tracker (`none` when CreateDisabledNodes was never
called; otherwise the node ids its getDisabledNodes reports; the
disabledNodes poller itself is absent from the source tree). -/
structure PruneState where
  pruneList : Nat → Option Bool
  disabledNodesStates : Option (List Nat)

/-- A single Go map write `s.pruneList[k] = v`. -/
def mapSet (m : Nat → Option Bool) (k : Nat) (v : Bool) : Nat → Option Bool :=
  fun x => if x = k then some v else m x

/-- The disabled-node list as seen through the tracker (empty when no
tracker exists). -/
def PruneState.getDisabledNodes (s : PruneState) : List Nat :=
  s.disabledNodesStates.getD []

/-- NetworkState.setPrunedNodesNoReset (storage/state.go): for each given id,
set its prune entry to false ("Disabled nodes will remain in NDF"). -/
def PruneState.setPrunedNodesNoReset (s : PruneState) (ids : List Nat) :
    PruneState :=
  { s with pruneList := ids.foldl (fun m i => mapSet m i false) s.pruneList }

/-- NetworkState.SetPrunedNodes (storage/state.go): replace the prune list
wholesale, then force every tracked disabled node back to false (when a
disabled-nodes tracker exists). -/
def PruneState.SetPrunedNodes (s : PruneState) (prunedNodes : Nat → Option Bool) :
    PruneState :=
  let s1 := { s with pruneList := prunedNodes }
  match s.disabledNodesStates with
  | some disabled =>
    { s1 with pruneList := disabled.foldl (fun m i => mapSet m i false) prunedNodes }
  | none => s1

/-- NetworkState.SetPrunedNode (storage/state.go): mark a single node as
pruned (`s.pruneList[*id] = true`), unconditionally. -/
def PruneState.SetPrunedNode (s : PruneState) (i : Nat) : PruneState :=
  { s with pruneList := mapSet s.pruneList i true }

/-- The spec's prune-set invariant (§3): every disabled node present in the
prune set maps to false, never to true. -/
def disabledPruneInvariant (s : PruneState) : Prop :=
  ∀ d ∈ s.getDisabledNodes, s.pruneList d ≠ some true

/-- A RoundError row of the storage layer (storage/interface.go). -/
structure RoundErrorRow where
  Id : Nat
  RoundMetricId : Nat
  Error : String
deriving DecidableEq, Repr

/-- A Topology row of the storage layer (storage/interface.go). -/
structure TopologyRow where
  NodeId : Nat
  RoundMetricId : Nat
  Order : Nat
deriving DecidableEq, Repr

/-- A RoundMetric row of the storage layer (storage/interface.go). -/
structure RoundMetricRow where
  Id : Nat
  RoundErrors : List RoundErrorRow
  Topologies : List TopologyRow
deriving DecidableEq, Repr

/-- The `roundMetrics` map of MapImpl (storage/interface.go): round id →
stored RoundMetric pointer (`none` models a missing entry, i.e. a nil
pointer). -/
structure MapImplRounds where
  roundMetrics : Nat → Option RoundMetricRow

/-- MapImpl.InsertRoundError (storage/permissioningMap.go): append a
RoundError row to `m.roundMetrics[rid].RoundErrors` without checking that the
entry exists.  A present entry is updated and nil is returned (`some`);
a missing entry makes the Go code dereference a nil *RoundMetric, a panic
modelled as `none`. -/
def MapImplRounds.InsertRoundError (m : MapImplRounds) (roundId : Nat)
    (errStr : String) : Option MapImplRounds :=
  match m.roundMetrics roundId with
  | none => none
  | some rm =>
    some ⟨fun k => if k = roundId then
            some { rm with RoundErrors :=
                     rm.RoundErrors ++ [⟨0, roundId, errStr⟩] }
          else m.roundMetrics k⟩

/-- MapImpl.InsertRoundMetric (storage/permissioningMap.go): build the
Topology rows from the topology (ids are already unmarshalled in this model,
so the id.Unmarshal error branch cannot fire) and store the metric under its
round id. -/
def MapImplRounds.InsertRoundMetric (m : MapImplRounds)
    (metric : RoundMetricRow) (topology : List Nat) : MapImplRounds :=
  let metric' := { metric with
    Topologies := (topology.enum).map (fun p => ⟨p.2, metric.Id, p.1⟩) }
  ⟨fun k => if k = metric.Id then some metric' else m.roundMetrics k⟩

/-- The loop invariant of the round-adder routine: starting UID `a`,
`arrived` the set of UIDs read from the channel so far.  The durable log is
exactly the contiguous range `[a, nextID)`, every arrived UID below `nextID`
has been inserted, and the parked map holds exactly the arrived UIDs not yet
inserted, none of which is `nextID`. -/
def adderInv (a : Nat) (arrived : Finset Nat) (s : AdderState) : Prop :=
  s.log = List.range' a s.log.length ∧
  s.nextID = a + s.log.length ∧
  s.future = arrived \ Finset.Ico a s.nextID ∧
  Finset.Ico a s.nextID ⊆ arrived ∧
  s.nextID ∉ s.future

/-- C6: the round-starter goroutine is supposed to sleep until
`now − lastStart ≥ MinimumDelay`, but the source sleeps `timeDiff` (the
elapsed time) instead of the remaining deficit, contradicting its own
comment "we make sure to sleep until the minimum delay".  Evaluating the
embedded delay computation at the failing input `lastRound = 0, now = 1,
MinimumDelay = 10`: the round starts at tick 2, only 2 ticks after the
previous start, well below the minimum delay of 10. -/
theorem roundStarter_minimum_delay_bug :
    roundStarterStartTime 0 1 10 = 2 ∧
    roundStarterStartTime 0 1 10 - 0 < 10 := by
  constructor <;> decide

/-- C10: MapImpl.InsertRoundError appends to
`m.roundMetrics[rid].RoundErrors` without checking that the entry exists.
When a RoundMetric with the round id is stored it returns nil (`some`) and
appends the error row; when none is stored it dereferences a nil entry
(`none`, a panic); and a preceding InsertRoundMetric for the round id
establishes the precondition. -/
theorem insertRoundError_requires_metric (m : MapImplRounds) (rid : Nat)
    (s : String) :
    (∀ rm, m.roundMetrics rid = some rm →
       m.InsertRoundError rid s =
         some ⟨fun k => if k = rid then
                 some { rm with RoundErrors := rm.RoundErrors ++ [⟨0, rid, s⟩] }
               else m.roundMetrics k⟩) ∧
    (m.roundMetrics rid = none → m.InsertRoundError rid s = none) ∧
    (∀ (metric : RoundMetricRow) (topology : List Nat), metric.Id = rid →
       ((m.InsertRoundMetric metric topology).InsertRoundError rid s).isSome) := by
  refine ⟨?_, ?_, ?_⟩
  · intro rm h
    simp [MapImplRounds.InsertRoundError, h]
  · intro h
    simp [MapImplRounds.InsertRoundError, h]
  · intro metric topology h
    subst h
    simp [MapImplRounds.InsertRoundError, MapImplRounds.InsertRoundMetric]

/-- Witness for C10: a map holding a RoundMetric for round 2 accepts an
error row for round 2. -/
theorem insertRoundError_requires_metric_witness :
    MapImplRounds.InsertRoundError ⟨fun k => if k = 2 then some ⟨2, [], []⟩ else none⟩ 2 "boom" =
      some ⟨fun k => if k = 2 then some ⟨2, [⟨0, 2, "boom"⟩], []⟩
            else (fun k => if k = 2 then some ⟨2, [], []⟩ else none) k⟩ :=
  (insertRoundError_requires_metric
    ⟨fun k => if k = 2 then some ⟨2, [], []⟩ else none⟩ 2 "boom").1 ⟨2, [], []⟩ rfl

/-- A Go-map write of `false` for each id in a list, folded: the final map
sends a key in the list to `some false` and leaves other keys unchanged. -/
lemma foldl_mapSet_false (ids : List Nat) (m : Nat → Option Bool) (k : Nat) :
    ids.foldl (fun m i => mapSet m i false) m k =
      if k ∈ ids then some false else m k := by
  induction ids generalizing m with
  | nil => simp
  | cons i rest ih =>
    simp only [List.foldl_cons, ih, mapSet, List.mem_cons]
    by_cases hk : k ∈ rest
    · simp [hk]
    · by_cases hki : k = i
      · simp [hk, hki]
      · simp [hk, hki]

/-- C9 (counterexample): the claim says every prune-set mutation leaves
disabled nodes mapping to `false`, never `true`; but SetPrunedNode writes
`true` unconditionally, so calling it on the disabled node 0 leaves 0
mapping to `true`. -/
theorem setPrunedNode_disabled_counterexample :
    0 ∈ (PruneState.mk (fun _ => none) (some [0])).getDisabledNodes ∧
    ((PruneState.mk (fun _ => none) (some [0])).SetPrunedNode 0).pruneList 0 =
      some true := by
  constructor
  · simp [PruneState.getDisabledNodes]
  · rfl

/-- C9 (amended): setPrunedNodesNoReset preserves the disabled-nodes-map-to-
false invariant; SetPrunedNodes establishes it outright (it forces every
tracked disabled node back to false); SetPrunedNode maps its argument to
true unconditionally, so it preserves the invariant only when its argument
is not a disabled node. -/
theorem pruneSet_disabled_invariant (s : PruneState) (ids : List Nat)
    (m : Nat → Option Bool) (i : Nat) :
    (disabledPruneInvariant s →
       disabledPruneInvariant (s.setPrunedNodesNoReset ids)) ∧
    disabledPruneInvariant (s.SetPrunedNodes m) ∧
    (disabledPruneInvariant s → i ∉ s.getDisabledNodes →
       disabledPruneInvariant (s.SetPrunedNode i)) := by
  refine ⟨?_, ?_, ?_⟩
  · intro hinv d hd
    simp only [PruneState.setPrunedNodesNoReset, PruneState.getDisabledNodes] at hd ⊢
    rw [foldl_mapSet_false]
    by_cases h : d ∈ ids
    · simp [h]
    · simpa [h] using hinv d hd
  · intro d hd
    simp only [PruneState.SetPrunedNodes, PruneState.getDisabledNodes] at hd ⊢
    cases hds : s.disabledNodesStates with
    | none => simp [hds] at hd
    | some disabled =>
      simp only [hds] at hd ⊢
      simp only [Option.getD_some] at hd
      rw [foldl_mapSet_false]
      simp [hd]
  · intro hinv hi d hd
    simp only [PruneState.SetPrunedNode, PruneState.getDisabledNodes, mapSet] at hd ⊢
    by_cases hdi : d = i
    · subst hdi
      exact absurd hd hi
    · simpa [hdi] using hinv d hd

/-- Witness for C9: with node 0 disabled, SetPrunedNode on the distinct node
3 keeps the invariant that disabled nodes never map to true. -/
theorem pruneSet_disabled_invariant_witness :
    disabledPruneInvariant
      ((PruneState.mk (fun _ => none) (some [0])).SetPrunedNode 3) :=
  (pruneSet_disabled_invariant ⟨fun _ => none, some [0]⟩ [] (fun _ => none) 3).2.2
    (fun _ _ h => nomatch h) (by decide)

/-- Round trip of the State-table number encoding: parsing the decimal
representation written by strconv.FormatUint recovers the value. -/
lemma parseUint_formatUint (k : Nat) : ParseUint (FormatUint k) = .ok k := by
  have hall : (Nat.digits 10 k).all (fun d => decide (d < 10)) = true := by
    rw [List.all_eq_true]
    intro d hd
    exact decide_eq_true (Nat.digits_lt_base (by norm_num) hd)
  simp only [ParseUint, FormatUint, hall, if_true]
  rw [Nat.ofDigits_digits]

/-- C7 (counterexample): with stored UpdateId = 5 (> 0), NewState loads 5 and
the next AddRoundUpdate assigns UID 5 — IncrementUpdateID returns the old
counter value — not 5 + 1 as the claim states. -/
theorem addRoundUpdate_resume_counterexample :
    NewStateLoadUpdateID
        ⟨fun k => if k = UpdateIdKey then some (FormatUint 5) else none⟩ =
      .ok 5 ∧
    (NetworkStateIds.AddRoundUpdate
        ⟨⟨fun k => if k = UpdateIdKey then some (FormatUint 5) else none⟩, 5, []⟩
        ⟨1, 0, .pending, [], [], 0⟩).1 = 5 ∧
    (5 : Nat) ≠ 5 + 1 := by
  refine ⟨?_, rfl, by decide⟩
  simp only [NewStateLoadUpdateID, if_pos rfl]
  exact parseUint_formatUint 5

/-- C7 (amended): persisting UpdateId through setId and reloading it through
GetUpdateID (or the NewState load) yields the identical value; and a state
whose loaded counter is k > 0 assigns UID k — not k + 1 — to the next update
appended through AddRoundUpdate, persisting k + 1 for the restart after it. -/
theorem updateId_persistence_resume (s : NetworkStateIds) (k : Nat)
    (info : RoundInfo) (hk : 0 < k) :
    (s.setId UpdateIdKey k).GetUpdateID = .ok k ∧
    NewStateLoadUpdateID (s.setId UpdateIdKey k).db = .ok k ∧
    (∀ st : NetworkStateIds, st.updateID = k →
       (st.AddRoundUpdate info).1 = k ∧
       (st.AddRoundUpdate info).2.db.states UpdateIdKey =
         some (FormatUint (k + 1)) ∧
       (st.AddRoundUpdate info).2.updates =
         st.updates ++ [{ info with UpdateID := k }] ∧
       (st.AddRoundUpdate info).2.updateID = k + 1) := by
  have h1 : (s.setId UpdateIdKey k).db.states UpdateIdKey =
      some (FormatUint k) := by
    simp [NetworkStateIds.setId, StateDb.UpsertState]
  refine ⟨?_, ?_, ?_⟩
  · simp only [NetworkStateIds.GetUpdateID, NetworkStateIds.get,
      StateDb.GetStateValue, h1]
    exact parseUint_formatUint k
  · simp only [NewStateLoadUpdateID, h1]
    exact parseUint_formatUint k
  · intro st hst
    refine ⟨by simp [NetworkStateIds.AddRoundUpdate,
        NetworkStateIds.IncrementUpdateID, hst], ?_, ?_, ?_⟩
    · simp [NetworkStateIds.AddRoundUpdate, NetworkStateIds.IncrementUpdateID,
        NetworkStateIds.setId, StateDb.UpsertState, hst]
    · simp [NetworkStateIds.AddRoundUpdate, NetworkStateIds.IncrementUpdateID,
        NetworkStateIds.setId, hst]
    · simp [NetworkStateIds.AddRoundUpdate, NetworkStateIds.IncrementUpdateID,
        NetworkStateIds.setId, hst]

/-- Witness for C7: the persistence round trip and the resume point evaluated
at stored value 5. -/
theorem updateId_persistence_resume_witness :
    (NetworkStateIds.setId ⟨⟨fun _ => none⟩, 0, []⟩ UpdateIdKey 5).GetUpdateID =
        .ok 5 ∧
    NewStateLoadUpdateID
        (NetworkStateIds.setId ⟨⟨fun _ => none⟩, 0, []⟩ UpdateIdKey 5).db =
      .ok 5 ∧
    (∀ st : NetworkStateIds, st.updateID = 5 →
       (st.AddRoundUpdate ⟨1, 0, .pending, [], [], 0⟩).1 = 5 ∧
       (st.AddRoundUpdate ⟨1, 0, .pending, [], [], 0⟩).2.db.states UpdateIdKey =
         some (FormatUint (5 + 1)) ∧
       (st.AddRoundUpdate ⟨1, 0, .pending, [], [], 0⟩).2.updates =
         st.updates ++ [{ ID := 1, UpdateID := 5, State := .pending,
                          Timestamps := [], Topology := [], BatchSize := 0 }] ∧
       (st.AddRoundUpdate ⟨1, 0, .pending, [], [], 0⟩).2.updateID = 5 + 1) :=
  updateId_persistence_resume ⟨⟨fun _ => none⟩, 0, []⟩ 5
    ⟨1, 0, .pending, [], [], 0⟩ (by decide)

/-- The prune pass on co-indexed lists equals filtering the zipped list with
the per-pair prune decision, projected back to the two components. -/
lemma pruneLoop_eq_filterMap (pl : Nat → Option Bool) :
    ∀ (ns : List NdfNode) (gs : List NdfGateway), ns.length = gs.length →
      (pruneLoop pl ns gs).1 =
        ((ns.zip gs).filterMap (pruneDecision pl)).map Prod.fst ∧
      (pruneLoop pl ns gs).2 =
        ((ns.zip gs).filterMap (pruneDecision pl)).map Prod.snd := by
  intro ns
  induction ns with
  | nil =>
    intro gs hlen
    have : gs = [] := List.length_eq_zero.mp hlen.symm
    subst this
    simp [pruneLoop]
  | cons n ns ih =>
    intro gs hlen
    cases gs with
    | nil => simp at hlen
    | cons g gs =>
      have hlen' : ns.length = gs.length := by
        simpa using hlen
      have ihg := ih gs hlen'
      cases hpn : pl n.ID with
      | none =>
        simp [pruneLoop, pruneDecision, hpn, ihg.1, ihg.2]
      | some b =>
        cases b with
        | true => simp [pruneLoop, pruneDecision, hpn, ihg.1, ihg.2]
        | false => simp [pruneLoop, pruneDecision, hpn, ihg.1, ihg.2]

/-- C8: UpdateOutputNdf publishes nothing when the snapshot of the unpruned
NDF is not strictly newer than the previously published full NDF; otherwise
it installs (as both the full and the partial NDF) the snapshot pruned
against the prune set — a node mapped to true is removed together with the
gateway at the same index, one mapped to false is kept marked Stale, an
unmapped one is kept marked Active — so the published node and gateway lists
have equal length and positional correspondence. -/
theorem updateOutputNdf_skip_and_prune (s : OutputNdfState)
    (loaded prev : NdfSnapshot) :
    (s.unprunedNdf = some loaded → s.fullNdf = some prev →
       loaded.Timestamp ≤ prev.Timestamp → UpdateOutputNdf s = (s, false)) ∧
    (s.unprunedNdf = some loaded →
       (s.fullNdf = none ∨
         (s.fullNdf = some prev ∧ prev.Timestamp < loaded.Timestamp)) →
       loaded.Nodes.length = loaded.Gateways.length →
       UpdateOutputNdf s =
         ({ s with
             fullNdf := some
               ⟨loaded.Timestamp,
                ((loaded.Nodes.zip loaded.Gateways).filterMap
                   (pruneDecision s.pruneList)).map Prod.fst,
                ((loaded.Nodes.zip loaded.Gateways).filterMap
                   (pruneDecision s.pruneList)).map Prod.snd⟩,
             partialNdf := some
               ⟨loaded.Timestamp,
                ((loaded.Nodes.zip loaded.Gateways).filterMap
                   (pruneDecision s.pruneList)).map Prod.fst,
                ((loaded.Nodes.zip loaded.Gateways).filterMap
                   (pruneDecision s.pruneList)).map Prod.snd⟩ }, true) ∧
       (((loaded.Nodes.zip loaded.Gateways).filterMap
           (pruneDecision s.pruneList)).map Prod.fst).length =
         (((loaded.Nodes.zip loaded.Gateways).filterMap
             (pruneDecision s.pruneList)).map Prod.snd).length) := by
  constructor
  · intro hu hf hts
    simp [UpdateOutputNdf, hu, hf, hts]
  · intro hu hf hlen
    have hzip := pruneLoop_eq_filterMap s.pruneList loaded.Nodes loaded.Gateways hlen
    have hskip :
        UpdateOutputNdf s =
          ({ s with
              fullNdf := some
                ⟨loaded.Timestamp,
                 (pruneLoop s.pruneList loaded.Nodes loaded.Gateways).1,
                 (pruneLoop s.pruneList loaded.Nodes loaded.Gateways).2⟩,
              partialNdf := some
                ⟨loaded.Timestamp,
                 (pruneLoop s.pruneList loaded.Nodes loaded.Gateways).1,
                 (pruneLoop s.pruneList loaded.Nodes loaded.Gateways).2⟩ },
           true) := by
      rcases hf with hf | ⟨hf, hts⟩
      · simp [UpdateOutputNdf, hu, hf]
      · have : ¬ loaded.Timestamp ≤ prev.Timestamp := not_le.mpr hts
        simp [UpdateOutputNdf, hu, hf, this]
    rw [hskip, hzip.1, hzip.2]
    simp

/-- Witness for C8: a three-node snapshot (node 1 pruned, node 2 stale,
node 3 unmapped) newer than the published NDF is published with node 1 and
gateway 1 removed, node 2 kept Stale, node 3 kept Active. -/
theorem updateOutputNdf_skip_and_prune_witness :
    UpdateOutputNdf
        ⟨some ⟨10, [⟨1, .unspecified⟩, ⟨2, .unspecified⟩, ⟨3, .unspecified⟩],
               [⟨1⟩, ⟨2⟩, ⟨3⟩]⟩,
         fun k => if k = 1 then some true else if k = 2 then some false else none,
         some ⟨5, [], []⟩, none⟩ =
      ({ unprunedNdf := some
           ⟨10, [⟨1, .unspecified⟩, ⟨2, .unspecified⟩, ⟨3, .unspecified⟩],
            [⟨1⟩, ⟨2⟩, ⟨3⟩]⟩,
         pruneList := fun k =>
           if k = 1 then some true else if k = 2 then some false else none,
         fullNdf := some ⟨10, [⟨2, .stale⟩, ⟨3, .active⟩], [⟨2⟩, ⟨3⟩]⟩,
         partialNdf := some ⟨10, [⟨2, .stale⟩, ⟨3, .active⟩], [⟨2⟩, ⟨3⟩]⟩ },
       true) :=
  ((updateOutputNdf_skip_and_prune
      ⟨some ⟨10, [⟨1, .unspecified⟩, ⟨2, .unspecified⟩, ⟨3, .unspecified⟩],
             [⟨1⟩, ⟨2⟩, ⟨3⟩]⟩,
       fun k => if k = 1 then some true else if k = 2 then some false else none,
       some ⟨5, [], []⟩, none⟩
      ⟨10, [⟨1, .unspecified⟩, ⟨2, .unspecified⟩, ⟨3, .unspecified⟩],
       [⟨1⟩, ⟨2⟩, ⟨3⟩]⟩
      ⟨5, [], []⟩).2 rfl (Or.inr ⟨rfl, by decide⟩) rfl).1

/-- C1: for a STANDBY update handled for a node with a current round (in
PRECOMPUTING), the handler increments the round's readiness counter, and if
and only if the counter then equals the team size it transitions the round
PRECOMPUTING → STANDBY, then STANDBY → QUEUED stamping the queued timestamp
at now + RealtimeDelay, and emits exactly one RoundUpdate; with fewer than
TeamSize STANDBY reports, no phase transition occurs and no update is
emitted. -/
theorem handleNodeUpdates_standby_readiness
    (update : UpdateNotification) (st : SchedState) (r : RoundState)
    (realtimeDelay now : Nat)
    (hAct : update.ToActivity = .standby)
    (hStat : update.ToStatus ≠ .banned)
    (hCE : update.ClientErrors = [])
    (hCR : st.currentRound = some r)
    (hPh : r.phase = .precomputing)
    (hUp : st.upsertStateFails = false) :
    (r.readyForTransition + 1 = r.topology.length →
      HandleNodeUpdates update st realtimeDelay now =
        .ok { st with
          currentRound := some { r with
            readyForTransition := r.readyForTransition + 1,
            phase := .queued,
            timestamps := (r.timestamps.set 2 now).set 3 (now + realtimeDelay) },
          updates := st.updates ++
            [{ ID := r.roundID, UpdateID := st.updateID, State := .queued,
               Timestamps := (r.timestamps.set 2 now).set 3 (now + realtimeDelay),
               Topology := r.topology, BatchSize := r.batchSize }],
          updateID := st.updateID + 1 }) ∧
    (r.readyForTransition + 1 ≠ r.topology.length →
      HandleNodeUpdates update st realtimeDelay now =
        .ok { st with currentRound := some { r with
          readyForTransition := r.readyForTransition + 1 } }) := by
  constructor
  · intro hfull
    simp [HandleNodeUpdates, handleActivity, hAct, hStat, hCE, hCR, hPh, hUp, hfull,
      RoundState.NodeIsReadyForTransition, RoundState.Update, RoundState.BuildRoundInfo,
      RoundPhase.toNat, SchedState.AddRoundUpdate]
  · intro hfull
    simp [HandleNodeUpdates, handleActivity, hAct, hStat, hCE, hCR, hPh, hUp, hfull,
      RoundState.NodeIsReadyForTransition, RoundState.Update, RoundState.BuildRoundInfo,
      RoundPhase.toNat, SchedState.AddRoundUpdate]

/-- Witness for C1: the third of three STANDBY reports transitions the round
to QUEUED with the realtime timestamp stamped at 5 + 2 and emits exactly one
update. -/
theorem handleNodeUpdates_standby_readiness_witness :
    HandleNodeUpdates
        ⟨10, .precomputing, .standby, .active, .active, ⟨0, 0, "", false⟩, []⟩
        ⟨some ⟨1, .precomputing, [10, 11, 12], 32, [0, 0, 0, 0, 0, 0, 0], [], [], 2⟩,
         [], [], [1], [], 7, false, false, false, [], []⟩ 2 5 =
      .ok ⟨some ⟨1, .queued, [10, 11, 12], 32, [0, 0, 5, 7, 0, 0, 0], [], [], 3⟩,
           [], [], [1],
           [⟨1, 7, .queued, [0, 0, 5, 7, 0, 0, 0], [10, 11, 12], 32⟩],
           8, false, false, false, [], []⟩ :=
  (handleNodeUpdates_standby_readiness
    ⟨10, .precomputing, .standby, .active, .active, ⟨0, 0, "", false⟩, []⟩
    ⟨some ⟨1, .precomputing, [10, 11, 12], 32, [0, 0, 0, 0, 0, 0, 0], [], [], 2⟩,
     [], [], [1], [], 7, false, false, false, [], []⟩
    ⟨1, .precomputing, [10, 11, 12], 32, [0, 0, 0, 0, 0, 0, 0], [], [], 2⟩
    2 5 rfl (by decide) rfl rfl rfl rfl).1 (by decide)

/-- C2 (counterexample): the first REALTIME report for a QUEUED round
transitions it to REALTIME but the handler emits no RoundUpdate — the update
log is unchanged — contradicting the claim that the first report emits
one. -/
theorem handleNodeUpdates_realtime_counterexample :
    HandleNodeUpdates
        ⟨10, .standby, .realtime, .active, .active, ⟨0, 0, "", false⟩, []⟩
        ⟨some ⟨1, .queued, [10, 11, 12], 32, [0, 0, 0, 0, 0, 0, 0], [], [], 3⟩,
         [], [], [1], [], 0, false, false, false, [], []⟩ 0 7 =
      .ok ⟨some ⟨1, .realtime, [10, 11, 12], 32, [0, 0, 0, 0, 7, 0, 0], [], [], 3⟩,
           [], [], [1], [], 0, false, false, false, [], []⟩ := by
  rfl

/-- C2 (amended): for a node with a current round, the first REALTIME report
for a round not yet in REALTIME transitions it QUEUED → REALTIME without
emitting any RoundUpdate; every subsequent REALTIME report is idempotent —
no transition, no update, success returned. -/
theorem handleNodeUpdates_realtime_first_idempotent
    (update : UpdateNotification) (st : SchedState) (r : RoundState)
    (realtimeDelay now : Nat)
    (hAct : update.ToActivity = .realtime)
    (hStat : update.ToStatus ≠ .banned)
    (hCE : update.ClientErrors = [])
    (hCR : st.currentRound = some r) :
    (r.phase = .queued →
      HandleNodeUpdates update st realtimeDelay now =
        .ok { st with currentRound := some { r with
          phase := .realtime, timestamps := r.timestamps.set 4 now } }) ∧
    (r.phase = .realtime →
      HandleNodeUpdates update st realtimeDelay now = .ok st) := by
  have hid : { st with currentRound := some r } = st := by rw [← hCR]
  constructor
  · intro hPh
    simp [HandleNodeUpdates, handleActivity, hAct, hStat, hCE, hCR, hPh,
      RoundState.Update, RoundPhase.toNat]
  · intro hPh
    simp [HandleNodeUpdates, handleActivity, hAct, hStat, hCE, hCR, hPh, hid]

/-- Witness for C2: a REALTIME report against a QUEUED round at tick 9
transitions the round and leaves the update log untouched. -/
theorem handleNodeUpdates_realtime_first_idempotent_witness :
    HandleNodeUpdates
        ⟨11, .standby, .realtime, .active, .active, ⟨0, 0, "", false⟩, []⟩
        ⟨some ⟨2, .queued, [11, 12, 13], 8, [0, 0, 0, 0, 0, 0, 0], [], [], 3⟩,
         [], [], [2], [], 4, false, false, false, [], []⟩ 0 9 =
      .ok ⟨some ⟨2, .realtime, [11, 12, 13], 8, [0, 0, 0, 0, 9, 0, 0], [], [], 3⟩,
           [], [], [2], [], 4, false, false, false, [], []⟩ :=
  (handleNodeUpdates_realtime_first_idempotent
    ⟨11, .standby, .realtime, .active, .active, ⟨0, 0, "", false⟩, []⟩
    ⟨some ⟨2, .queued, [11, 12, 13], 8, [0, 0, 0, 0, 0, 0, 0], [], [], 3⟩,
     [], [], [2], [], 4, false, false, false, [], []⟩
    ⟨2, .queued, [11, 12, 13], 8, [0, 0, 0, 0, 0, 0, 0], [], [], 3⟩
    0 9 rfl (by decide) rfl rfl).1 rfl

/-- C3 (counterexample): an UpdateNotification with ToStatus = Banned for a
node whose current round is already FAILED (and a non-ERROR activity) is
dropped by the round-already-failed guard before the ban branch: the handler
returns success with no mutation and the node still holds its round
pointer. -/
theorem handleNodeUpdates_banned_counterexample :
    HandleNodeUpdates
        ⟨10, .waiting, .waiting, .active, .banned, ⟨0, 0, "", false⟩, []⟩
        ⟨some ⟨1, .failed, [10, 11, 12], 32, [0, 0, 0, 0, 0, 0, 0], [], [], 0⟩,
         [], [], [], [], 0, false, false, false, [], []⟩ 0 0 =
      .ok ⟨some ⟨1, .failed, [10, 11, 12], 32, [0, 0, 0, 0, 0, 0, 0], [], [], 0⟩,
           [], [], [], [], 0, false, false, false, [], []⟩ ∧
    (some (⟨1, .failed, [10, 11, 12], 32, [0, 0, 0, 0, 0, 0, 0], [], [], 0⟩ : RoundState)
       ≠ (none : Option RoundState)) := by
  exact ⟨rfl, by decide⟩

/-- C3 (amended): for a Banned update whose node's round (if any) is not
already FAILED, the handler kills the round — synthesizing a signed
RoundError naming the banned node, clearing the round pointer — or, with no
round, removes the node from the waiting pool; the activity branch is never
processed, and afterwards (given the invariant that a node holding a round
is not pooled) the node is absent from the pool and holds no round
pointer. -/
theorem handleNodeUpdates_banned_ban_safety
    (update : UpdateNotification) (st : SchedState)
    (realtimeDelay now : Nat)
    (hStat : update.ToStatus = .banned)
    (hCE : update.ClientErrors = [])
    (hNF : ∀ r, st.currentRound = some r → r.phase ≠ .failed)
    (hPool : ∀ r, st.currentRound = some r → update.Node ∉ st.pool)
    (hUp : st.upsertStateFails = false)
    (hIM : st.insertRoundMetricFails = false)
    (hIE : st.insertRoundErrorFails = false) :
    (∀ r, st.currentRound = some r →
      HandleNodeUpdates update st realtimeDelay now =
        .ok { st with
          currentRound := none,
          activeRounds := st.activeRounds.filter (fun x => x ≠ r.roundID),
          updates := st.updates ++
            [{ ID := r.roundID, UpdateID := st.updateID, State := .failed,
               Timestamps := r.timestamps.set 6 now,
               Topology := r.topology, BatchSize := r.batchSize }],
          updateID := st.updateID + 1,
          storedMetrics := st.storedMetrics ++ [r.roundID],
          storedRoundErrors := st.storedRoundErrors ++
            [(r.roundID, "Round Error from " ++ toString permissioningID ++ ": " ++
               ("Round killed due to particiption of banned node " ++
                 toString update.Node))] }) ∧
    (st.currentRound = none →
      HandleNodeUpdates update st realtimeDelay now =
        .ok (st.poolBan update.Node)) ∧
    (∀ st', HandleNodeUpdates update st realtimeDelay now = .ok st' →
      st'.currentRound = none ∧ update.Node ∉ st'.pool) := by
  have case1 : ∀ r, st.currentRound = some r →
      HandleNodeUpdates update st realtimeDelay now =
        .ok { st with
          currentRound := none,
          activeRounds := st.activeRounds.filter (fun x => x ≠ r.roundID),
          updates := st.updates ++
            [{ ID := r.roundID, UpdateID := st.updateID, State := .failed,
               Timestamps := r.timestamps.set 6 now,
               Topology := r.topology, BatchSize := r.batchSize }],
          updateID := st.updateID + 1,
          storedMetrics := st.storedMetrics ++ [r.roundID],
          storedRoundErrors := st.storedRoundErrors ++
            [(r.roundID, "Round Error from " ++ toString permissioningID ++ ": " ++
               ("Round killed due to particiption of banned node " ++
                 toString update.Node))] } := by
    intro r hr
    have hf := hNF r hr
    simp [HandleNodeUpdates, killRound, hr, hCE, hStat, hf, hUp, hIM, hIE,
      RoundState.Update, RoundState.BuildRoundInfo, RoundPhase.toNat,
      SchedState.AddRoundUpdate]
  have case2 : st.currentRound = none →
      HandleNodeUpdates update st realtimeDelay now =
        .ok (st.poolBan update.Node) := by
    intro hn
    have hid : { st with currentRound := none } = st := by rw [← hn]
    simp [HandleNodeUpdates, hn, hCE, hStat, hid]
  refine ⟨case1, case2, ?_⟩
  intro st' h
  cases hcr : st.currentRound with
  | none =>
    rw [case2 hcr] at h
    simp only [Except.ok.injEq] at h
    subst h
    refine ⟨hcr, ?_⟩
    simp [SchedState.poolBan, List.mem_filter]
  | some r =>
    rw [case1 r hcr] at h
    simp only [Except.ok.injEq] at h
    subst h
    exact ⟨rfl, hPool r hcr⟩

/-- Witness for C3: banning node 12 mid-round kills round 4, emits the
FAILED update, clears the pointer and records the ban RoundError row naming
node 12. -/
theorem handleNodeUpdates_banned_ban_safety_witness :
    HandleNodeUpdates
        ⟨12, .precomputing, .precomputing, .active, .banned, ⟨0, 0, "", false⟩, []⟩
        ⟨some ⟨4, .precomputing, [12, 13, 14], 32, [0, 0, 0, 0, 0, 0, 0], [], [], 1⟩,
         [], [], [4], [], 3, false, false, false, [], []⟩ 0 6 =
      .ok ⟨none, [], [], [],
           [⟨4, 3, .failed, [0, 0, 0, 0, 0, 0, 6], [12, 13, 14], 32⟩],
           4, false, false, false, [4],
           [(4, "Round Error from 0: Round killed due to particiption of banned node 12")]⟩ :=
  (handleNodeUpdates_banned_ban_safety
    ⟨12, .precomputing, .precomputing, .active, .banned, ⟨0, 0, "", false⟩, []⟩
    ⟨some ⟨4, .precomputing, [12, 13, 14], 32, [0, 0, 0, 0, 0, 0, 0], [], [], 1⟩,
     [], [], [4], [], 3, false, false, false, [], []⟩ 0 6 rfl rfl
    (by intro r hr; cases hr; decide)
    (by intro r hr; cases hr; decide) rfl rfl rfl).1
    ⟨4, .precomputing, [12, 13, 14], 32, [0, 0, 0, 0, 0, 0, 0], [], [], 1⟩ rfl

/-- C5 (counterexample): on the round-completion path the handler ends with
`return StoreRoundMetric(roundInfo)`, so a storage failure inserting the
RoundMetric is returned to the scheduler rather than swallowed. -/
theorem handleNodeUpdates_completed_storage_counterexample :
    HandleNodeUpdates
        ⟨10, .realtime, .completed, .active, .active, ⟨0, 0, "", false⟩, []⟩
        ⟨some ⟨1, .realtime, [10, 11, 12], 32, [0, 0, 0, 0, 0, 0, 0], [], [], 2⟩,
         [], [], [1], [], 0, false, true, false, [], []⟩ 0 9 =
      .error "insert round metric failed" := by
  rfl

/-- C5 (amended): on the kill-round path (here via an ERROR activity) both
the RoundMetric and the RoundError storage failures are logged and
swallowed: the handler still returns success, with the FAILED update
emitted and nothing stored. -/
theorem handleNodeUpdates_error_kill_swallows_storage
    (update : UpdateNotification) (st : SchedState) (r : RoundState)
    (realtimeDelay now : Nat)
    (hAct : update.ToActivity = .error)
    (hStat : update.ToStatus ≠ .banned)
    (hCE : update.ClientErrors = [])
    (hCR : st.currentRound = some r)
    (hUp : st.upsertStateFails = false)
    (hIM : st.insertRoundMetricFails = true)
    (hIE : st.insertRoundErrorFails = true) :
    HandleNodeUpdates update st realtimeDelay now =
      .ok { st with
        currentRound := none,
        activeRounds := st.activeRounds.filter (fun x => x ≠ r.roundID),
        updates := st.updates ++
          [{ ID := r.roundID, UpdateID := st.updateID, State := .failed,
             Timestamps := r.timestamps.set 6 now,
             Topology := r.topology, BatchSize := r.batchSize }],
        updateID := st.updateID + 1 } := by
  simp [HandleNodeUpdates, handleActivity, killRound, hAct, hStat, hCE, hCR,
    hUp, hIM, hIE, RoundState.Update, RoundState.BuildRoundInfo,
    RoundPhase.toNat, SchedState.AddRoundUpdate]

/-- Witness for C5: a kill-round run in which both storage inserts fail
still returns success with the FAILED update emitted. -/
theorem handleNodeUpdates_error_kill_swallows_storage_witness :
    HandleNodeUpdates
        ⟨10, .realtime, .error, .active, .active, ⟨1, 10, "node fell over", true⟩, []⟩
        ⟨some ⟨1, .realtime, [10, 11, 12], 32, [0, 0, 0, 0, 0, 0, 0], [], [], 2⟩,
         [], [], [1], [], 5, false, true, true, [], []⟩ 0 9 =
      .ok ⟨none, [], [], [],
           [⟨1, 5, .failed, [0, 0, 0, 0, 0, 0, 9], [10, 11, 12], 32⟩],
           6, false, true, true, [], []⟩ :=
  handleNodeUpdates_error_kill_swallows_storage
    ⟨10, .realtime, .error, .active, .active, ⟨1, 10, "node fell over", true⟩, []⟩
    ⟨some ⟨1, .realtime, [10, 11, 12], 32, [0, 0, 0, 0, 0, 0, 0], [], [], 2⟩,
     [], [], [1], [], 5, false, true, true, [], []⟩
    ⟨1, .realtime, [10, 11, 12], 32, [0, 0, 0, 0, 0, 0, 0], [], [], 2⟩
    0 9 rfl (by decide) rfl rfl rfl rfl rfl

/-- Characterization of the drain loop: it appends the maximal contiguous
run starting at nextID that is present in the parked map, removes that run
from the map, and advances nextID past it. -/
lemma drainAux_spec (future : Finset Nat) (next : Nat) (log : List Nat) :
    ∃ m, (drainAux future next log).1 = log ++ List.range' next m ∧
      (drainAux future next log).2.2 = next + m ∧
      (drainAux future next log).2.1 = future \ Finset.Ico next (next + m) ∧
      Finset.Ico next (next + m) ⊆ future ∧
      (drainAux future next log).2.2 ∉ (drainAux future next log).2.1 := by
  induction future, next, log using drainAux.induct with
  | case1 future next log h ih =>
    obtain ⟨m, h1, h2, h3, h4, h5⟩ := ih
    rw [drainAux, dif_pos h]
    refine ⟨m + 1, ?_, by rw [h2]; omega, ?_, ?_, h5⟩
    · rw [h1, List.range'_succ]
      simp [List.append_assoc]
    · rw [h3]
      ext x
      simp only [Finset.mem_sdiff, Finset.mem_erase, Finset.mem_Ico]
      by_cases hx : x ∈ future <;> simp [hx] <;> omega
    · intro x hx
      simp only [Finset.mem_Ico] at hx
      by_cases hxn : x = next
      · exact hxn ▸ h
      · have : x ∈ Finset.Ico (next + 1) (next + 1 + m) := by
          simp only [Finset.mem_Ico]
          omega
        exact Finset.mem_of_mem_erase (h4 this)
  | case2 future next log h =>
    rw [drainAux, dif_neg h]
    exact ⟨0, by simp, by simp, by simp, by simp, by simpa using h⟩

/-- One round-adder iteration preserves the loop invariant when the new UID
is fresh and at least the starting UID. -/
lemma roundAdderStep_preserves (a : Nat) (arrived : Finset Nat)
    (s : AdderState) (uid : Nat) (hInv : adderInv a arrived s)
    (hlen : 1 ≤ s.log.length) (hnew : uid ∉ arrived) (ha : a ≤ uid) :
    adderInv a (insert uid arrived) (roundAdderStep s uid) ∧
      1 ≤ (roundAdderStep s uid).log.length := by
  obtain ⟨hlog, hnext, hfut, hsub, hnin⟩ := hInv
  obtain ⟨k, hk⟩ : ∃ k, s.log = List.range' a k := ⟨s.log.length, hlog⟩
  have hklen : s.log.length = k := by rw [hk, List.length_range']
  rw [hklen] at hnext
  have hk1 : 1 ≤ k := hklen ▸ hlen
  have hnlt : ¬ uid < s.nextID := by
    intro hlt
    exact hnew (hsub (by simp only [Finset.mem_Ico]; exact ⟨ha, hlt⟩))
  have huidn : a + k ≤ uid := hnext ▸ Nat.not_lt.mp hnlt
  have hn0 : ¬ s.nextID = 0 := by omega
  rw [hnext] at hsub
  unfold roundAdderStep
  rw [if_neg hnlt]
  simp only [if_neg hn0]
  obtain ⟨m, h1, h2, h3, h4, h5⟩ := drainAux_spec (insert uid s.future) s.nextID s.log
  rw [hfut] at h4
  rw [hnext] at h4
  have e1 : (drainAux (insert uid s.future) s.nextID s.log).1 =
      List.range' a (k + m) := by
    rw [h1, hk, hnext]
    simpa [Nat.add_comm] using List.range'_append_1 a k m
  have e1len : (drainAux (insert uid s.future) s.nextID s.log).1.length =
      k + m := by
    rw [e1, List.length_range']
  refine ⟨⟨?_, ?_, ?_, ?_, h5⟩, ?_⟩
  · show (drainAux (insert uid s.future) s.nextID s.log).1 =
      List.range' a (drainAux (insert uid s.future) s.nextID s.log).1.length
    rw [e1len, e1]
  · show (drainAux (insert uid s.future) s.nextID s.log).2.2 =
      a + (drainAux (insert uid s.future) s.nextID s.log).1.length
    rw [e1len, h2]
    omega
  · show (drainAux (insert uid s.future) s.nextID s.log).2.1 =
      insert uid arrived \
        Finset.Ico a (drainAux (insert uid s.future) s.nextID s.log).2.2
    rw [h2, h3, hfut]
    ext x
    simp only [Finset.mem_sdiff, Finset.mem_insert, Finset.mem_Ico]
    by_cases hxu : x = uid
    · subst hxu
      simp [hnew]
      omega
    · simp only [hxu, false_or]
      by_cases hxa : x ∈ arrived <;> simp [hxa] <;> omega
  · show Finset.Ico a (drainAux (insert uid s.future) s.nextID s.log).2.2 ⊆
      insert uid arrived
    rw [h2]
    intro x hx
    simp only [Finset.mem_Ico] at hx
    by_cases hxn : x < a + k
    · exact Finset.mem_insert_of_mem (hsub (by simp only [Finset.mem_Ico]; omega))
    · have hxm : x ∈ Finset.Ico (a + k) (a + k + m) := by
        simp only [Finset.mem_Ico]
        omega
      rcases Finset.mem_insert.mp (h4 hxm) with h | h
      · exact h ▸ Finset.mem_insert_self uid arrived
      · exact Finset.mem_insert_of_mem (Finset.mem_sdiff.mp h).1
  · show 1 ≤ (drainAux (insert uid s.future) s.nextID s.log).1.length
    rw [e1len]
    omega

/-- The first arrival — the starting UID `a` — establishes the loop
invariant: it is parked and immediately drained into the log. -/
lemma roundAdderStep_init (a : Nat) :
    adderInv a {a} (roundAdderStep ⟨[], ∅, 0⟩ a) ∧
      1 ≤ (roundAdderStep ⟨[], ∅, 0⟩ a).log.length := by
  unfold roundAdderStep
  simp only [Nat.not_lt_zero, if_false, if_pos rfl]
  obtain ⟨m, h1, h2, h3, h4, h5⟩ := drainAux_spec (insert a (∅ : Finset Nat)) a []
  have hm1 : m = 1 := by
    rcases m with _ | _ | m
    · exfalso
      rw [h2] at h5
      rw [h3] at h5
      simp at h5
    · rfl
    · exfalso
      have hmem : a + 1 ∈ Finset.Ico a (a + (m + 1 + 1)) := by
        simp only [Finset.mem_Ico]
        omega
      have := h4 hmem
      simp at this
  subst hm1
  have e1 : (drainAux (insert a (∅ : Finset Nat)) a []).1 = List.range' a 1 := by
    rw [h1]
    simp
  have e1len : (drainAux (insert a (∅ : Finset Nat)) a []).1.length = 1 := by
    rw [e1, List.length_range']
  refine ⟨⟨?_, ?_, ?_, ?_, h5⟩, ?_⟩
  · show (drainAux (insert a (∅ : Finset Nat)) a []).1 =
      List.range' a (drainAux (insert a (∅ : Finset Nat)) a []).1.length
    rw [e1len, e1]
  · show (drainAux (insert a (∅ : Finset Nat)) a []).2.2 =
      a + (drainAux (insert a (∅ : Finset Nat)) a []).1.length
    rw [e1len, h2]
  · show (drainAux (insert a (∅ : Finset Nat)) a []).2.1 =
      {a} \ Finset.Ico a (drainAux (insert a (∅ : Finset Nat)) a []).2.2
    rw [h2, h3]
    simp
  · show Finset.Ico a (drainAux (insert a (∅ : Finset Nat)) a []).2.2 ⊆ {a}
    rw [h2]
    intro x hx
    simp only [Finset.mem_Ico] at hx
    simp only [Finset.mem_singleton]
    omega
  · show 1 ≤ (drainAux (insert a (∅ : Finset Nat)) a []).1.length
    rw [e1len]

/-- Folding the round-adder step over any list of fresh UIDs bounded below
by `a` preserves the loop invariant. -/
lemma roundAdderRun_inv (a : Nat) (l : List Nat) :
    ∀ (s : AdderState) (arrived : Finset Nat),
      adderInv a arrived s → 1 ≤ s.log.length →
      (∀ x ∈ l, a ≤ x) → (∀ x ∈ l, x ∉ arrived) → l.Nodup →
      adderInv a (arrived ∪ l.toFinset) (l.foldl roundAdderStep s) ∧
        1 ≤ (l.foldl roundAdderStep s).log.length := by
  induction l with
  | nil =>
    intro s arrived h1 h2 _ _ _
    simpa using ⟨h1, h2⟩
  | cons x xs ih =>
    intro s arrived h1 h2 hge hnin hnd
    have hstep := roundAdderStep_preserves a arrived s x h1 h2
      (hnin x (by simp)) (hge x (by simp))
    have hnd' : xs.Nodup := (List.nodup_cons.mp hnd).2
    have hxnot : x ∉ xs := (List.nodup_cons.mp hnd).1
    have ih' := ih (roundAdderStep s x) (insert x arrived) hstep.1 hstep.2
      (fun y hy => hge y (List.mem_cons_of_mem x hy))
      (fun y hy h => by
        rcases Finset.mem_insert.mp h with h | h
        · exact hxnot (h ▸ hy)
        · exact hnin y (List.mem_cons_of_mem x hy) h)
      hnd'
    have hset : insert x arrived ∪ xs.toFinset = arrived ∪ (x :: xs).toFinset := by
      ext y
      simp only [Finset.mem_union, Finset.mem_insert, List.toFinset_cons]
      tauto
    simp only [List.foldl_cons]
    rw [← hset]
    exact ih'

/-- C4: for a finite arrival multiset whose UIDs form a contiguous range
starting at the first observed UID, RoundAdderRoutine — which inserts
below-nextID arrivals immediately, parks the rest in a map keyed by UID and
drains the map while map[nextID] exists — produces a durable log that is
exactly the range in strictly increasing UID order with no gaps, regardless
of arrival order, leaving no update parked. -/
theorem roundAdderRoutine_ordered_no_gaps (a n : Nat) (uids : List Nat)
    (hperm : uids.Perm (List.range' a n)) (hhead : uids.head? = some a) :
    (RoundAdderRoutine uids).log = List.range' a n ∧
    (RoundAdderRoutine uids).future = ∅ := by
  obtain ⟨rest, rfl⟩ : ∃ rest, uids = a :: rest := by
    cases uids with
    | nil => simp at hhead
    | cons y ys =>
      simp only [List.head?_cons, Option.some.injEq] at hhead
      exact ⟨ys, by rw [hhead]⟩
  have hnodup : (a :: rest).Nodup :=
    hperm.nodup_iff.mpr (List.nodup_range' a n)
  have hmem : ∀ x ∈ a :: rest, a ≤ x ∧ x < a + n := by
    intro x hx
    exact List.mem_range'_1.mp (hperm.mem_iff.mp hx)
  have hbase := roundAdderStep_init a
  have hrun := roundAdderRun_inv a rest (roundAdderStep ⟨[], ∅, 0⟩ a) {a}
    hbase.1 hbase.2
    (fun x hx => (hmem x (List.mem_cons_of_mem a hx)).1)
    (fun x hx h => (List.nodup_cons.mp hnodup).1
      ((Finset.mem_singleton.mp h) ▸ hx))
    (List.nodup_cons.mp hnodup).2
  have hfold : RoundAdderRoutine (a :: rest) =
      rest.foldl roundAdderStep (roundAdderStep ⟨[], ∅, 0⟩ a) := by
    simp [RoundAdderRoutine]
  obtain ⟨⟨hlog, hnext, hfut, hsub, hnin⟩, hlen⟩ := hrun
  have hmemS : ∀ x : Nat, x ∈ ({a} ∪ rest.toFinset : Finset Nat) ↔
      a ≤ x ∧ x < a + n := by
    intro x
    rw [Finset.mem_union, Finset.mem_singleton, List.mem_toFinset,
      ← List.mem_cons, hperm.mem_iff, List.mem_range'_1]
  set k := (rest.foldl roundAdderStep (roundAdderStep ⟨[], ∅, 0⟩ a)).log.length with hkdef
  have hn1 : 1 ≤ n := by
    have hl := hperm.length_eq
    simp only [List.length_cons, List.length_range'] at hl
    omega
  have hkn : k = n := by
    have hle : k ≤ n := by
      by_contra hgt
      push_neg at hgt
      have hmem' : a + n ∈ Finset.Ico a (a + k) := by
        simp only [Finset.mem_Ico]
        omega
      have := (hmemS (a + n)).mp (hsub (hnext ▸ hmem'))
      omega
    by_contra hne
    have hlt : k < n := lt_of_le_of_ne hle hne
    have hin : a + k ∈ ({a} ∪ rest.toFinset : Finset Nat) :=
      (hmemS (a + k)).mpr ⟨Nat.le_add_right a k, by omega⟩
    have : a + k ∈ (rest.foldl roundAdderStep (roundAdderStep ⟨[], ∅, 0⟩ a)).future := by
      rw [hfut, hnext]
      simp only [Finset.mem_sdiff, Finset.mem_Ico]
      exact ⟨hin, by omega⟩
    exact hnin (hnext ▸ this)
  constructor
  · rw [hfold, hlog, hkn]
  · rw [hfold, hfut, hnext, hkn]
    ext x
    simp only [Finset.mem_sdiff, Finset.mem_Ico, Finset.not_mem_empty,
      iff_false, not_and, not_not]
    intro hx
    have := (hmemS x).mp hx
    omega

/-- Witness for C4: the arrivals 3,5,4,6 — a permutation of the contiguous
range [3,6] starting at the first observed UID 3 — are inserted as exactly
3,4,5,6 with nothing left parked. -/
theorem roundAdderRoutine_ordered_no_gaps_witness :
    (RoundAdderRoutine [3, 5, 4, 6]).log = List.range' 3 4 ∧
    (RoundAdderRoutine [3, 5, 4, 6]).future = ∅ :=
  roundAdderRoutine_ordered_no_gaps 3 4 [3, 5, 4, 6] (by decide) rfl
